import Mathlib

/-!
Verification development for the marvin prompt-composition and
chat-execution pipeline, as described in its documentation notebooks.
The repository ships only documentation; the definitions below are
therefore modelled from the specification text and settled against it.
-/

namespace Marvin

/-- Modelled from the spec: the role enum of a message.  The data model
fixes Fragment roles to system, user and assistant; the executor loop
additionally records tool results as messages, for which we provide a
fourth role. -/
inductive Role
  | system
  | user
  | assistant
  | function
deriving DecidableEq, Repr

/-- Modelled from the spec: one piece of text-with-placeholders, either a
literal run of text or a placeholder variable. -/
inductive Piece
  | lit (s : String)
  | var (name : String)
deriving DecidableEq, Repr

/-- First-match association-list lookup, the variable-mapping primitive
used by the renderer and by the frozen-configuration merge. -/
def alookup (m : List (String × String)) (k : String) : Option String :=
  match m with
  | [] => none
  | (k2, v) :: rest => if k2 = k then some v else alookup rest k

/-- Modelled from the spec: a Prompt Fragment, an immutable templated
text block bound to a role, with fragment-local static defaults. -/
structure Fragment where
  role : Role
  template : List Piece
  defaults : List (String × String)
deriving DecidableEq, Repr

/-- Modelled from the spec: a Prompt Sequence, an ordered list of
Fragments built by the combination operator. -/
structure Sequence where
  fragments : List Fragment
deriving DecidableEq, Repr

/-- Modelled from the spec: Sequence combination (the pipe operator in
the notebooks): append, producing a new Sequence. -/
def Sequence.or (a b : Sequence) : Sequence :=
  ⟨a.fragments ++ b.fragments⟩

/-- Modelled from the spec: a Rendered Message, a role paired with
resolved text. -/
structure RenderedMessage where
  role : Role
  content : String
deriving DecidableEq, Repr

/-- Modelled from the spec: rendering fails with a MissingVariable error
when a placeholder has neither a default nor a supplied value. -/
inductive RenderError
  | missingVariable (name : String)
deriving DecidableEq, Repr

/-- Modelled from the spec: placeholder resolution.  Fragment-local
defaults apply first, caller-supplied variables override. -/
def resolve (defaults vars : List (String × String)) (k : String) : Option String :=
  match alookup vars k with
  | some v => some v
  | none => alookup defaults k

/-- Modelled from the spec: substitute a single template piece. -/
def renderPiece (defaults vars : List (String × String)) (p : Piece) :
    Except RenderError String :=
  match p with
  | .lit s => .ok s
  | .var n =>
    match resolve defaults vars n with
    | some v => .ok v
    | none => .error (.missingVariable n)

/-- Modelled from the spec: substitute every placeholder of a template,
concatenating the resolved pieces. -/
def renderTemplate (defaults vars : List (String × String)) :
    List Piece → Except RenderError String
  | [] => .ok ""
  | p :: ps =>
    match renderPiece defaults vars p with
    | .error e => .error e
    | .ok s =>
      match renderTemplate defaults vars ps with
      | .error e => .error e
      | .ok rest => .ok (s ++ rest)

/-- Modelled from the spec: render one Fragment into a Rendered Message. -/
def renderFragment (vars : List (String × String)) (f : Fragment) :
    Except RenderError RenderedMessage :=
  match renderTemplate f.defaults vars f.template with
  | .error e => .error e
  | .ok c => .ok ⟨f.role, c⟩

/-- Modelled from the spec: render each Fragment in order. -/
def renderList (vars : List (String × String)) :
    List Fragment → Except RenderError (List RenderedMessage)
  | [] => .ok []
  | f :: fs =>
    match renderFragment vars f with
    | .error e => .error e
    | .ok m =>
      match renderList vars fs with
      | .error e => .error e
      | .ok rest => .ok (m :: rest)

/-- Modelled from the spec: the render contract on a Sequence, resolving
placeholders against a supplied variable mapping. -/
def Sequence.render (s : Sequence) (vars : List (String × String)) :
    Except RenderError (List RenderedMessage) :=
  renderList vars s.fragments

/-- Modelled from the spec: a message of the conversation transcript, a
role/content pair as sent to the remote chat-completion endpoint. -/
structure ChatMessage where
  role : Role
  content : String
deriving DecidableEq, Repr

/-- Modelled from the spec: a Tool/Function Descriptor schema entry:
name, description and parameter schema (kept abstract as text). -/
structure FunctionSchema where
  name : String
  description : String
  parameters : String
deriving DecidableEq, Repr

/-- Modelled from the spec: the keyword arguments of a chat-completion
call: the two concatenating keys (messages and tool descriptors) plus
an association list for every other keyword. -/
structure Kwargs where
  messages : List ChatMessage
  functions : List FunctionSchema
  others : List (String × String)
deriving DecidableEq, Repr

/-- Modelled from the spec: merge of the non-concatenating keys, where a
per-call value overrides the frozen default. -/
def mergeOthers (frozen percall : List (String × String)) : List (String × String) :=
  frozen.filter (fun kv => (alookup percall kv.1).isNone) ++ percall

/-- Modelled from the spec: marvin.openai.ChatCompletion, an instance
holding keyword arguments frozen at construction time. -/
structure ChatCompletion where
  frozen : Kwargs
deriving DecidableEq, Repr

/-- Modelled from the spec: ChatCompletion.create computes the keyword
arguments of the remote call by merging frozen and per-call keywords:
messages and functions concatenate with the frozen values first, every
other key is overridden by the per-call value. -/
def ChatCompletion.create (self : ChatCompletion) (percall : Kwargs) : Kwargs :=
  { messages := self.frozen.messages ++ percall.messages
  , functions := self.frozen.functions ++ percall.functions
  , others := mergeOthers self.frozen.others percall.others }

/-- Modelled from the spec: the requested tool call of a response
envelope: a function name and its formatted arguments. -/
structure FnCall where
  name : String
  arguments : String
deriving DecidableEq, Repr

/-- Modelled from the spec: the Response Envelope of the model invoker:
role, optional content and optional requested call. -/
structure ResponseEnvelope where
  role : Role
  content : Option String
  functionCall : Option FnCall
deriving DecidableEq, Repr

/-- Modelled from the spec: the two invoker failures surfaced to the
caller as hard failures. -/
inductive InvokerError
  | remoteUnavailable
  | responseParseError
deriving DecidableEq, Repr

/-- Modelled from the spec: a Tool Descriptor with its invocable local
handler; the handler may fail, which models a raised exception. -/
structure ToolDescriptor where
  name : String
  description : String
  handler : String → Except String String

/-- Resolve a requested name against the registry of Tool Descriptors. -/
def lookupTool : List ToolDescriptor → String → Option ToolDescriptor
  | [], _ => none
  | t :: ts, n => if t.name = n then some t else lookupTool ts n

/-- Modelled from the spec: the model oracle behind invoke, mapping the
current transcript to a response envelope or a hard invoker failure. -/
def Oracle : Type :=
  List ChatMessage → Except InvokerError ResponseEnvelope

/-- The assistant message recorded for a model response. -/
def respMessage (r : ResponseEnvelope) : ChatMessage :=
  ⟨r.role, r.content.getD ""⟩

/-- Modelled from the spec: dispatch of a requested tool call.  An
unknown name becomes an UnknownTool message, a handler failure becomes
a ToolExecutionFailure message; both are recorded, never raised. -/
def dispatch (registry : List ToolDescriptor) (call : FnCall) : ChatMessage :=
  match lookupTool registry call.name with
  | none => ⟨.function, "UnknownTool: " ++ call.name⟩
  | some t =>
    match t.handler call.arguments with
    | .error e => ⟨.function, "ToolExecutionFailure: " ++ e⟩
    | .ok r => ⟨.function, r⟩

/-- Modelled from the spec: the result of the executor loop: the
transcript, the number of model calls made, and the completion flag
(false when the iteration limit was reached). -/
structure ExecResult where
  transcript : List ChatMessage
  modelCalls : Nat
  completed : Bool
deriving DecidableEq, Repr

/-- Modelled from the spec: the executor loop of
OpenAIFunctionsExecutor.  Each iteration invokes the model once; plain
content terminates DONE, a requested call is dispatched and its result
appended, and an exhausted iteration budget terminates with the partial
transcript flagged incomplete. -/
def execLoop (registry : List ToolDescriptor) (oracle : Oracle) :
    Nat → List ChatMessage → Nat → Except InvokerError ExecResult
  | 0, transcript, calls => .ok ⟨transcript, calls, false⟩
  | n + 1, transcript, calls =>
    match oracle transcript with
    | .error e => .error e
    | .ok resp =>
      match resp.functionCall with
      | none => .ok ⟨transcript ++ [respMessage resp], calls + 1, true⟩
      | some call =>
        execLoop registry oracle n
          (transcript ++ [respMessage resp, dispatch registry call]) (calls + 1)

/-- Modelled from the spec: OpenAIFunctionsExecutor.start on rendered
prompts, with a configured iteration budget. -/
def start (registry : List ToolDescriptor) (oracle : Oracle) (budget : Nat)
    (prompts : List ChatMessage) : Except InvokerError ExecResult :=
  execLoop registry oracle budget prompts 0

/-- A concrete registry used in examples: a single tool whose handler
always fails, modelling a raised exception. -/
def exampleRegistry : List ToolDescriptor :=
  [⟨"boom", "always fails", fun _ => Except.error "bad"⟩]

/-- A concrete oracle used in examples: remote failure on the empty
transcript, a request for an unknown tool on a one-message transcript,
and a request for the failing tool otherwise. -/
def exampleOracle : Oracle := fun t =>
  if t.length = 0 then .error .remoteUnavailable
  else if t.length = 1 then .ok ⟨.assistant, none, some ⟨"nope", "x"⟩⟩
  else .ok ⟨.assistant, none, some ⟨"boom", "x"⟩⟩

/-- Modelled from the spec: classifier selection of ai_classifier over
a closed option set.  The provider-side output-biasing mechanism
constrains the raw model output to the index range of the enumerated
options (modelled by reducing the oracle output modulo the number of
options), and the selected index is mapped back to the option. -/
def aiClassifier {α : Type} (options : List α) (oracleIndex : String → Nat)
    (input : String) (h : options ≠ []) : α :=
  options.get ⟨oracleIndex input % options.length,
    Nat.mod_lt _ (List.length_pos.mpr h)⟩

/-! Helper lemmas about the renderer. -/

theorem resolve_eq_none_iff (defaults vars : List (String × String)) (k : String) :
    resolve defaults vars k = none ↔
      alookup defaults k = none ∧ alookup vars k = none := by
  rw [resolve]
  cases h : alookup vars k <;> simp [h]

theorem renderTemplate_ok_iff (defaults vars : List (String × String))
    (ps : List Piece) :
    (∃ s, renderTemplate defaults vars ps = .ok s) ↔
      ∀ n, Piece.var n ∈ ps → resolve defaults vars n ≠ none := by
  induction ps with
  | nil => simp [renderTemplate]
  | cons p ps ih =>
    cases p with
    | lit s =>
      rw [renderTemplate]
      simp only [renderPiece]
      cases hr : renderTemplate defaults vars ps with
      | error e =>
        rw [hr] at ih
        constructor
        · rintro ⟨s2, hs⟩
          cases hs
        · intro h
          obtain ⟨s2, hs⟩ := ih.mpr (fun n hn => h n (List.mem_cons_of_mem _ hn))
          cases hs
      | ok rest =>
        rw [hr] at ih
        constructor
        · intro _ n hn
          rcases List.mem_cons.mp hn with h1 | h2
          · cases h1
          · exact ih.mp ⟨rest, rfl⟩ n h2
        · intro _
          exact ⟨s ++ rest, rfl⟩
    | var m =>
      rw [renderTemplate]
      cases hres : resolve defaults vars m with
      | none =>
        simp only [renderPiece, hres]
        constructor
        · rintro ⟨s, hs⟩
          cases hs
        · intro h
          exact absurd hres (h m (List.mem_cons_self _ _))
      | some v =>
        simp only [renderPiece, hres]
        cases hr : renderTemplate defaults vars ps with
        | error e =>
          rw [hr] at ih
          constructor
          · rintro ⟨s, hs⟩
            cases hs
          · intro h
            obtain ⟨s, hs⟩ := ih.mpr (fun n hn => h n (List.mem_cons_of_mem _ hn))
            cases hs
        | ok rest =>
          rw [hr] at ih
          constructor
          · intro _ n hn
            rcases List.mem_cons.mp hn with h1 | h2
            · cases h1
              rw [hres]
              exact fun hc => Option.noConfusion hc
            · exact (ih.mp ⟨rest, rfl⟩) n h2
          · intro _
            exact ⟨v ++ rest, rfl⟩

theorem renderFragment_ok_iff (vars : List (String × String)) (f : Fragment) :
    (∃ m, renderFragment vars f = .ok m) ↔
      ∀ n, Piece.var n ∈ f.template → resolve f.defaults vars n ≠ none := by
  rw [← renderTemplate_ok_iff f.defaults vars f.template]
  rw [renderFragment]
  cases hr : renderTemplate f.defaults vars f.template <;> simp

theorem renderList_ok_iff (vars : List (String × String)) (fs : List Fragment) :
    (∃ ms, renderList vars fs = .ok ms) ↔
      ∀ f ∈ fs, ∃ m, renderFragment vars f = .ok m := by
  induction fs with
  | nil => simp [renderList]
  | cons f fs ih =>
    rw [renderList]
    cases hf : renderFragment vars f with
    | error e =>
      constructor
      · rintro ⟨ms, hms⟩
        cases hms
      · intro h
        obtain ⟨m, hm⟩ := h f (List.mem_cons_self _ _)
        rw [hf] at hm
        cases hm
    | ok m =>
      cases hr : renderList vars fs with
      | error e =>
        rw [hr] at ih
        constructor
        · rintro ⟨ms, hms⟩
          cases hms
        · intro h
          obtain ⟨ms, hms⟩ := ih.mpr (fun g hg => h g (List.mem_cons_of_mem _ hg))
          cases hms
      | ok rest =>
        rw [hr] at ih
        constructor
        · intro _ g hg
          rcases List.mem_cons.mp hg with h1 | h2
          · subst h1
            exact ⟨m, hf⟩
          · exact ih.mp ⟨rest, rfl⟩ g h2
        · intro _
          exact ⟨m :: rest, rfl⟩

theorem renderList_not_ok_iff_error (vars : List (String × String))
    (fs : List Fragment) :
    (¬ ∃ ms, renderList vars fs = .ok ms) ↔
      ∃ n, renderList vars fs = .error (.missingVariable n) := by
  cases h : renderList vars fs with
  | error e =>
    cases e with
    | missingVariable n => simp
  | ok ms => simp

theorem renderList_ok_forall2 (vars : List (String × String))
    (fs : List Fragment) (ms : List RenderedMessage)
    (h : renderList vars fs = .ok ms) :
    List.Forall₂ (fun f m => renderFragment vars f = .ok m) fs ms := by
  induction fs generalizing ms with
  | nil =>
    rw [renderList] at h
    cases h
    exact List.Forall₂.nil
  | cons f fs ih =>
    rw [renderList] at h
    cases hf : renderFragment vars f with
    | error e =>
      rw [hf] at h
      cases h
    | ok m =>
      rw [hf] at h
      cases hr : renderList vars fs with
      | error e =>
        rw [hr] at h
        cases h
      | ok rest =>
        rw [hr] at h
        cases h
        exact List.Forall₂.cons hf (ih rest hr)

/-- C3: a successful render of a Sequence of n Fragments yields exactly
n Rendered Messages, pointwise in composition order: the i-th message
is the rendering of the i-th fragment. -/
theorem render_order (s : Sequence) (vars : List (String × String))
    (ms : List RenderedMessage) (h : s.render vars = .ok ms) :
    ms.length = s.fragments.length ∧
    List.Forall₂ (fun f m => renderFragment vars f = .ok m) s.fragments ms := by
  have h2 := renderList_ok_forall2 vars s.fragments ms h
  exact ⟨h2.length_eq.symm, h2⟩

/-- Witness for C3: rendering a concrete two-fragment Sequence yields
two messages in composition order. -/
theorem render_order_witness :
    (Sequence.mk [⟨Role.system, [Piece.lit "a"], []⟩,
        ⟨Role.user, [Piece.var "t"], []⟩]).render [("t", "x")] =
      .ok [⟨Role.system, "a"⟩, ⟨Role.user, "x"⟩]
  ∧ ([⟨Role.system, "a"⟩, ⟨Role.user, "x"⟩] : List RenderedMessage).length =
      (Sequence.mk [⟨Role.system, [Piece.lit "a"], []⟩,
        ⟨Role.user, [Piece.var "t"], []⟩]).fragments.length
  ∧ List.Forall₂ (fun f m => renderFragment [("t", "x")] f = .ok m)
      (Sequence.mk [⟨Role.system, [Piece.lit "a"], []⟩,
        ⟨Role.user, [Piece.var "t"], []⟩]).fragments
      [⟨Role.system, "a"⟩, ⟨Role.user, "x"⟩] :=
  ⟨rfl,
    (render_order
      (Sequence.mk [⟨Role.system, [Piece.lit "a"], []⟩,
        ⟨Role.user, [Piece.var "t"], []⟩]) [("t", "x")]
      [⟨Role.system, "a"⟩, ⟨Role.user, "x"⟩] rfl).1,
    (render_order
      (Sequence.mk [⟨Role.system, [Piece.lit "a"], []⟩,
        ⟨Role.user, [Piece.var "t"], []⟩]) [("t", "x")]
      [⟨Role.system, "a"⟩, ⟨Role.user, "x"⟩] rfl).2⟩

/-- C4: rendering fails with MissingVariable exactly when some
placeholder of some Fragment has neither a fragment-local default nor
a caller-supplied value, and succeeds whenever every placeholder is
covered by one of the two. -/
theorem render_missing_iff (s : Sequence) (vars : List (String × String)) :
    ((∃ n, s.render vars = .error (.missingVariable n)) ↔
      ∃ f ∈ s.fragments, ∃ n, Piece.var n ∈ f.template ∧
        alookup f.defaults n = none ∧ alookup vars n = none)
  ∧ ((∀ f ∈ s.fragments, ∀ n, Piece.var n ∈ f.template →
        alookup f.defaults n ≠ none ∨ alookup vars n ≠ none) →
      ∃ ms, s.render vars = .ok ms) := by
  have hok : (∃ ms, s.render vars = .ok ms) ↔
      ∀ f ∈ s.fragments, ∀ n, Piece.var n ∈ f.template →
        resolve f.defaults vars n ≠ none := by
    rw [Sequence.render, renderList_ok_iff]
    constructor
    · intro h f hf
      exact (renderFragment_ok_iff vars f).mp (h f hf)
    · intro h f hf
      exact (renderFragment_ok_iff vars f).mpr (h f hf)
  constructor
  · rw [show (∃ n, s.render vars = .error (.missingVariable n)) ↔
        ¬ ∃ ms, s.render vars = .ok ms from
      (renderList_not_ok_iff_error vars s.fragments).symm]
    rw [hok]
    push_neg
    constructor
    · rintro ⟨f, hf, n, hn, hres⟩
      rw [resolve_eq_none_iff] at hres
      exact ⟨f, hf, n, hn, hres.1, hres.2⟩
    · rintro ⟨f, hf, n, hn, hd, hv⟩
      exact ⟨f, hf, n, hn, (resolve_eq_none_iff _ _ _).mpr ⟨hd, hv⟩⟩
  · intro h
    refine hok.mpr (fun f hf n hn => ?_)
    intro hres
    rw [resolve_eq_none_iff] at hres
    rcases h f hf n hn with h1 | h2
    · exact h1 hres.1
    · exact h2 hres.2

/-- Witness for C4: a Fragment whose placeholder has no default fails
with MissingVariable under an empty mapping, and succeeds once the
caller supplies the variable. -/
theorem render_missing_iff_witness :
    (∃ n, (Sequence.mk [⟨Role.system, [Piece.var "topic"], []⟩]).render [] =
      .error (.missingVariable n))
  ∧ (∃ ms, (Sequence.mk [⟨Role.system, [Piece.var "topic"], []⟩]).render
      [("topic", "geometry")] = .ok ms) :=
  ⟨(render_missing_iff _ _).1.mpr
      ⟨⟨Role.system, [Piece.var "topic"], []⟩, by decide, "topic", by decide,
        rfl, rfl⟩,
    (render_missing_iff _ _).2
      (by
        rintro f hf n hn
        right
        rcases List.mem_singleton.mp hf with rfl
        rcases List.mem_singleton.mp hn with h
        cases h
        intro hc
        cases hc)⟩

/-- C5: a placeholder with a fragment-local default renders to the
default when the caller supplies nothing, and to the caller-supplied
value whenever one is supplied. -/
theorem default_override (defaults vars : List (String × String)) (n d : String)
    (hd : alookup defaults n = some d) :
    (alookup vars n = none → renderPiece defaults vars (Piece.var n) = .ok d)
  ∧ (∀ v, alookup vars n = some v →
      renderPiece defaults vars (Piece.var n) = .ok v) := by
  constructor
  · intro hv
    simp [renderPiece, resolve, hv, hd]
  · intro v hv
    simp [renderPiece, resolve, hv]

/-- Witness for C5: the Tutor default resolves when the name is not
supplied and is overridden when it is. -/
theorem default_override_witness :
    alookup [("name", "not provided")] "name" = some "not provided"
  ∧ renderPiece [("name", "not provided")] [] (Piece.var "name") =
      .ok "not provided"
  ∧ renderPiece [("name", "not provided")] [("name", "Adam")] (Piece.var "name") =
      .ok "Adam" :=
  ⟨rfl,
    (default_override [("name", "not provided")] [] "name" "not provided" rfl).1 rfl,
    (default_override [("name", "not provided")] [("name", "Adam")] "name"
      "not provided" rfl).2 "Adam" rfl⟩

/-! Helper lemmas about association-list lookup and the keyword merge. -/

theorem alookup_append (l1 l2 : List (String × String)) (k : String) :
    alookup (l1 ++ l2) k =
      match alookup l1 k with
      | some v => some v
      | none => alookup l2 k := by
  induction l1 with
  | nil => simp [alookup]
  | cons kv rest ih =>
    obtain ⟨k2, v⟩ := kv
    by_cases h : k2 = k <;> simp [alookup, h, ih]

theorem alookup_filter_of_none (percall frozen : List (String × String)) (k : String)
    (h : alookup percall k = none) :
    alookup (frozen.filter (fun kv => (alookup percall kv.1).isNone)) k =
      alookup frozen k := by
  induction frozen with
  | nil => simp [alookup]
  | cons kv rest ih =>
    obtain ⟨k2, v⟩ := kv
    by_cases hk : k2 = k
    · subst hk
      simp [alookup, h, ih]
    · by_cases hp : (alookup percall k2).isNone <;> simp [alookup, hk, hp, ih]

theorem alookup_filter_of_some (percall frozen : List (String × String)) (k v : String)
    (h : alookup percall k = some v) :
    alookup (frozen.filter (fun kv => (alookup percall kv.1).isNone)) k = none := by
  induction frozen with
  | nil => simp [alookup]
  | cons kv rest ih =>
    obtain ⟨k2, w⟩ := kv
    by_cases hk : k2 = k
    · subst hk
      simp [alookup, h, ih]
    · by_cases hp : (alookup percall k2).isNone <;> simp [alookup, hk, hp, ih]

theorem alookup_mergeOthers_override (frozen percall : List (String × String))
    (k v : String) (h : alookup percall k = some v) :
    alookup (mergeOthers frozen percall) k = some v := by
  rw [mergeOthers, alookup_append, alookup_filter_of_some percall frozen k v h, h]

theorem alookup_mergeOthers_default (frozen percall : List (String × String))
    (k : String) (h : alookup percall k = none) :
    alookup (mergeOthers frozen percall) k = alookup frozen k := by
  rw [mergeOthers, alookup_append, alookup_filter_of_none percall frozen k h]
  cases hf : alookup frozen k <;> simp [h]

/-- C1: in the merge performed by ChatCompletion.create, the messages
and functions keys concatenate with the frozen values first, and every
other key takes the per-call value when one is supplied and the frozen
default otherwise. -/
theorem create_merge (self : ChatCompletion) (percall : Kwargs) :
    (self.create percall).messages = self.frozen.messages ++ percall.messages
  ∧ (self.create percall).functions = self.frozen.functions ++ percall.functions
  ∧ (∀ k v, alookup percall.others k = some v →
      alookup (self.create percall).others k = some v)
  ∧ (∀ k, alookup percall.others k = none →
      alookup (self.create percall).others k = alookup self.frozen.others k) := by
  refine ⟨rfl, rfl, ?_, ?_⟩
  · intro k v h
    exact alookup_mergeOthers_override _ _ k v h
  · intro k h
    exact alookup_mergeOthers_default _ _ k h

/-- Witness for C1: a config frozen with one system message and
temperature zero, called with one user message and temperature one,
yields the two messages in frozen-first order and temperature one. -/
theorem create_merge_witness :
    ((ChatCompletion.mk
        ⟨[⟨Role.system, "You talk like a pirate"⟩], [], [("temperature", "0")]⟩).create
      ⟨[⟨Role.user, "Hello!"⟩], [], [("temperature", "1")]⟩).messages =
        [⟨Role.system, "You talk like a pirate"⟩, ⟨Role.user, "Hello!"⟩]
  ∧ alookup ((ChatCompletion.mk
        ⟨[⟨Role.system, "You talk like a pirate"⟩], [], [("temperature", "0")]⟩).create
      ⟨[⟨Role.user, "Hello!"⟩], [], [("temperature", "1")]⟩).others "temperature" =
        some "1" :=
  ⟨(create_merge _ _).1, (create_merge _ _).2.2.1 "temperature" "1" rfl⟩

/-- C9: Sequence combination is associative, and the combined result is
exactly the concatenation of the fragment lists of its operands (the
operands themselves are unchanged, combination building a new value). -/
theorem or_assoc_fragments (a b c : Sequence) :
    (a.or b).or c = a.or (b.or c)
  ∧ ((a.or b).or c).fragments = a.fragments ++ b.fragments ++ c.fragments
  ∧ (a.or b).fragments = a.fragments ++ b.fragments := by
  refine ⟨?_, ?_, rfl⟩
  · show Sequence.mk _ = Sequence.mk _
    rw [Sequence.or, Sequence.or, List.append_assoc]
  · rfl

/-- C8: rendering is pure and repeatable: it is a function of the
Sequence and the variable mapping alone, so two render calls on the
same Sequence with the same variables yield identical output. -/
theorem render_repeatable (s1 s2 : Sequence) (v1 v2 : List (String × String))
    (hs : s1 = s2) (hv : v1 = v2) :
    s1.render v1 = s2.render v2 := by
  rw [hs, hv]

/-- Witness for C8: rendering a concrete one-fragment Sequence twice
with the same variables gives the same result. -/
theorem render_repeatable_witness :
    (Sequence.mk [⟨Role.user, [Piece.var "t"], []⟩]).render [("t", "x")] =
    (Sequence.mk [⟨Role.user, [Piece.var "t"], []⟩]).render [("t", "x")] :=
  render_repeatable _ _ _ _ rfl rfl

/-- C10: the ai_classifier selection always returns a member of the
decorated closed option set. -/
theorem aiClassifier_mem {α : Type} (options : List α) (oracleIndex : String → Nat)
    (input : String) (h : options ≠ []) :
    aiClassifier options oracleIndex input h ∈ options :=
  List.get_mem _ _ _

/-- Witness for C10: a concrete three-option classifier with an oracle
index outside the range still lands inside the option set. -/
theorem aiClassifier_mem_witness :
    (["/search", "/help", "/docs"] : List String) ≠ []
  ∧ aiClassifier ["/search", "/help", "/docs"] (fun _ => 7) "update my name"
      (by decide) ∈ ["/search", "/help", "/docs"] :=
  ⟨by decide, aiClassifier_mem _ _ _ (by decide)⟩

/-! Executor-loop lemmas. -/

theorem execLoop_always_call (registry : List ToolDescriptor) (oracle : Oracle)
    (h : ∀ t, ∃ r, oracle t = .ok r ∧ r.functionCall.isSome) :
    ∀ (n : Nat) (t : List ChatMessage) (c : Nat),
      ∃ res, execLoop registry oracle n t c = .ok res ∧
        res.completed = false ∧ res.modelCalls = c + n := by
  intro n
  induction n with
  | zero =>
    intro t c
    exact ⟨⟨t, c, false⟩, rfl, rfl, rfl⟩
  | succ n ih =>
    intro t c
    obtain ⟨r, hr, hc⟩ := h t
    obtain ⟨call, hcall⟩ := Option.isSome_iff_exists.mp hc
    obtain ⟨res, hres, hcomp, hcalls⟩ :=
      ih (t ++ [respMessage r, dispatch registry call]) (c + 1)
    refine ⟨res, ?_, hcomp, ?_⟩
    · simp only [execLoop, hr, hcall]
      exact hres
    · rw [hcalls]
      omega

/-- C2: against a model that requests a tool call on every response,
the executor loop terminates after exactly the configured iteration
budget, every run making at most that many model calls, and reports
the run as not completed. -/
theorem executor_budget (registry : List ToolDescriptor) (oracle : Oracle)
    (budget : Nat) (prompts : List ChatMessage)
    (h : ∀ t, ∃ r, oracle t = .ok r ∧ r.functionCall.isSome) :
    ∃ res, start registry oracle budget prompts = .ok res ∧
      res.completed = false ∧ res.modelCalls = budget := by
  obtain ⟨res, h1, h2, h3⟩ := execLoop_always_call registry oracle h budget prompts 0
  refine ⟨res, h1, h2, ?_⟩
  rw [h3]
  omega

/-- Witness for C2: a concrete always-calling oracle with budget two
stops after two model calls, flagged incomplete. -/
theorem executor_budget_witness :
    ∃ res, start [] (fun _ => .ok ⟨Role.assistant, none, some ⟨"f", "a"⟩⟩) 2 [] =
        .ok res ∧ res.completed = false ∧ res.modelCalls = 2 :=
  executor_budget [] (fun _ => .ok ⟨Role.assistant, none, some ⟨"f", "a"⟩⟩) 2 []
    (fun _ => ⟨⟨Role.assistant, none, some ⟨"f", "a"⟩⟩, rfl, rfl⟩)

/-- C6: when the first model response is plain content with no
requested call, the executor makes exactly one model call and
terminates DONE with that response appended to the transcript. -/
theorem executor_done_first (registry : List ToolDescriptor) (oracle : Oracle)
    (budget : Nat) (prompts : List ChatMessage) (r : ResponseEnvelope)
    (hb : 0 < budget) (hr : oracle prompts = .ok r) (hc : r.functionCall = none) :
    start registry oracle budget prompts =
      .ok ⟨prompts ++ [respMessage r], 1, true⟩ := by
  obtain ⟨n, rfl⟩ : ∃ n, budget = n + 1 := ⟨budget - 1, by omega⟩
  simp only [start, execLoop, hr, hc]

/-- Witness for C6: a concrete plain-content oracle terminates DONE
after a single model call. -/
theorem executor_done_first_witness :
    start [] (fun _ => .ok ⟨Role.assistant, some "hi", none⟩) 1 [⟨Role.user, "q"⟩] =
      .ok ⟨[⟨Role.user, "q"⟩, ⟨Role.assistant, "hi"⟩], 1, true⟩ :=
  executor_done_first [] (fun _ => .ok ⟨Role.assistant, some "hi", none⟩) 1
    [⟨Role.user, "q"⟩] ⟨Role.assistant, some "hi", none⟩ (by omega) rfl rfl

/-- C7: a hard failure of the executor loop can only originate in the
model invoker (so only RemoteUnavailable and ResponseParseError ever
surface), while an unknown tool name or a failing tool handler is
converted into a message appended to the transcript and the loop
continues. -/
theorem executor_error_containment (registry : List ToolDescriptor) (oracle : Oracle) :
    (∀ (n : Nat) (t : List ChatMessage) (c : Nat) (e : InvokerError),
        execLoop registry oracle n t c = .error e → ∃ t2, oracle t2 = .error e)
  ∧ (∀ (n : Nat) (t : List ChatMessage) (c : Nat) (r : ResponseEnvelope)
        (call : FnCall),
        oracle t = .ok r → r.functionCall = some call →
        lookupTool registry call.name = none →
        execLoop registry oracle (n + 1) t c =
          execLoop registry oracle n
            (t ++ [respMessage r, ⟨Role.function, "UnknownTool: " ++ call.name⟩])
            (c + 1))
  ∧ (∀ (n : Nat) (t : List ChatMessage) (c : Nat) (r : ResponseEnvelope)
        (call : FnCall) (td : ToolDescriptor) (msg : String),
        oracle t = .ok r → r.functionCall = some call →
        lookupTool registry call.name = some td →
        td.handler call.arguments = .error msg →
        execLoop registry oracle (n + 1) t c =
          execLoop registry oracle n
            (t ++ [respMessage r, ⟨Role.function, "ToolExecutionFailure: " ++ msg⟩])
            (c + 1)) := by
  refine ⟨?_, ?_, ?_⟩
  · intro n
    induction n with
    | zero =>
      intro t c e h
      rw [execLoop] at h
      cases h
    | succ n ih =>
      intro t c e h
      cases ho : oracle t with
      | error e2 =>
        simp only [execLoop, ho] at h
        cases h
        exact ⟨t, ho⟩
      | ok r =>
        cases hcall : r.functionCall with
        | none =>
          simp only [execLoop, ho, hcall] at h
          cases h
        | some call =>
          simp only [execLoop, ho, hcall] at h
          exact ih _ _ e h
  · intro n t c r call hr hcall hlook
    simp only [execLoop, hr, hcall, dispatch, hlook]
  · intro n t c r call td msg hr hcall hlook hh
    simp only [execLoop, hr, hcall, dispatch, hlook, hh]

/-- Witness for C7: on the example registry and oracle, a surfaced
RemoteUnavailable traces back to the oracle, an unknown tool name is
recorded as an UnknownTool message, and a failing handler is recorded
as a ToolExecutionFailure message, the loop continuing in both cases. -/
theorem executor_error_containment_witness :
    (∃ t2, exampleOracle t2 = .error .remoteUnavailable)
  ∧ execLoop exampleRegistry exampleOracle 1 [⟨Role.user, "q"⟩] 0 =
      execLoop exampleRegistry exampleOracle 0
        ([⟨Role.user, "q"⟩] ++
          [respMessage ⟨Role.assistant, none, some ⟨"nope", "x"⟩⟩,
            ⟨Role.function, "UnknownTool: " ++ "nope"⟩]) 1
  ∧ execLoop exampleRegistry exampleOracle 1 [⟨Role.user, "q"⟩, ⟨Role.user, "q"⟩] 0 =
      execLoop exampleRegistry exampleOracle 0
        ([⟨Role.user, "q"⟩, ⟨Role.user, "q"⟩] ++
          [respMessage ⟨Role.assistant, none, some ⟨"boom", "x"⟩⟩,
            ⟨Role.function, "ToolExecutionFailure: " ++ "bad"⟩]) 1 :=
  ⟨(executor_error_containment exampleRegistry exampleOracle).1 1 [] 0
      .remoteUnavailable rfl,
    (executor_error_containment exampleRegistry exampleOracle).2.1 0
      [⟨Role.user, "q"⟩] 0 ⟨Role.assistant, none, some ⟨"nope", "x"⟩⟩
      ⟨"nope", "x"⟩ rfl rfl rfl,
    (executor_error_containment exampleRegistry exampleOracle).2.2 0
      [⟨Role.user, "q"⟩, ⟨Role.user, "q"⟩] 0
      ⟨Role.assistant, none, some ⟨"boom", "x"⟩⟩ ⟨"boom", "x"⟩
      ⟨"boom", "always fails", fun _ => Except.error "bad"⟩ "bad" rfl rfl rfl rfl⟩

end Marvin
